import Mathlib

/-!
Verification of the CAS subsystem and compile-job result cache.

This file gives a shallow embedding of the action-cache backends
(llvm/lib/CAS/ActionCaches.cpp), the plugin loader (llvm/lib/CAS/PluginCAS.cpp),
the capturing output backend (CASOutputBackend.cpp) and the dependency-scanner
service options (clang/tools/libclang/CDependencies.cpp), together with proofs
of the behavioural claims about them.

Machine integers that index the object table are modelled as Nat (ObjectRef is
a wrapper around a uint64 index; indices stay far below 2^64 in every claim, so
no wrap-around is observable). BLAKE3 is modelled as a perfect hash: the spec
treats collisions as impossible, so the canonical encoding of an object serves
as its own digest.
-/

/-- A CAS object reference: internally a 64-bit index into the backend table
(CASReference.h, field InternalRef). Modelled as the index itself. -/
abbrev ObjectRef := Nat

/-- A CAS object: opaque data bytes plus an ordered list of references to other
objects (spec section 3). Data bytes are modelled as a String, matching the
StringRef views the source passes around. -/
structure Obj where
  refs : List ObjectRef
  data : String
deriving DecidableEq

/-- A digest value. BLAKE3 is modelled as a perfect (collision-free) hash, per
the spec (collisions are treated as impossible), so the canonical encoding of
an object, i.e. the object itself, stands for its 32-byte digest. -/
abbrev Hash := Obj

/-- The digest of an object: under the perfect-hash model this is the canonical
encoding itself. -/
def digest (o : Obj) : Hash := o

/-- Modelled from the spec: the paired ObjectStore (the in-memory CAS backend
implementation is not part of the sources here; only its interface and
contract are). The store is the list of stored objects in insertion order; an
ObjectRef is an index into this list. -/
structure ObjectStore where
  objects : List Obj
deriving DecidableEq

/-- Index of the first occurrence of an object in the table, if any. -/
def lookupObj : List Obj → Obj → Option Nat
  | [], _ => none
  | x :: xs, o => if x = o then some 0 else (lookupObj xs o).map (· + 1)

/-- Modelled from the spec: getReference(id) looks an object up by digest
without loading it; None if the object is unknown to the store. -/
def ObjectStore.getReference (s : ObjectStore) (h : Hash) : Option ObjectRef :=
  lookupObj s.objects h

/-- Modelled from the spec: getID(ref) returns the digest of the object the
reference points at. Total via a default for out-of-range indices; every claim
only uses it on references that exist. -/
def ObjectStore.getID (s : ObjectStore) (r : ObjectRef) : Hash :=
  digest (s.objects.getD r (Obj.mk [] ""))

/-- Modelled from the spec: store(refs, data) inserts the object and returns a
reference; idempotent, the backend keeps only one copy. -/
def ObjectStore.store (s : ObjectStore) (o : Obj) : ObjectStore × ObjectRef :=
  match lookupObj s.objects o with
  | some i => (s, i)
  | none => (ObjectStore.mk (s.objects ++ [o]), s.objects.length)

/-- An action-cache key: the raw digest bytes of a CASID (ActionCaches.cpp
takes ArrayRef of uint8, which in every caller is a CASID hash). -/
abbrev Key := Hash

/-- Errors produced by the action-cache backends. poisoned carries the new and
the existing value as printed by createResultCachePoisonedError (both render as
digests; under the perfect-hash model the resolved CASID and the raw hash of
the existing value coincide). unknownObject is the dangling-value error built
by createResultCacheUnknownObjectError. -/
inductive CacheError where
  | poisoned (key : Key) (newValue : Hash) (existingValue : Hash)
  | unknownObject (key : Key) (hash : Hash)
deriving DecidableEq

/-- Lookup in the trie, modelled as first match in an association list
(HashMappedTrie find). -/
def findEntry : List (Key × Hash) → Key → Option Hash
  | [], _ => none
  | e :: es, key => if e.1 = key then some e.2 else findEntry es key

/-- insertLazy on the trie: insert-or-return-existing. If the key is present
the existing payload is returned and the constructor is not run; otherwise the
new payload is installed and returned (spec section 4.1). -/
def insertLazy (cache : List (Key × Hash)) (key : Key) (value : Hash) :
    List (Key × Hash) × Hash :=
  match findEntry cache key with
  | some existing => (cache, existing)
  | none => (cache ++ [(key, value)], value)

/-- InMemoryActionCache: a thread-safe hash-mapped trie from key digests to
CacheEntry values (ActionCaches.cpp lines 40-53), modelled sequentially. -/
structure InMemoryActionCache where
  cache : List (Key × Hash)
deriving DecidableEq

/-- InMemoryActionCache::getImpl (ActionCaches.cpp lines 116-127). NOTE: the
source returns getCAS().getReference(...) directly at line 121, so the
dangling-value check at lines 122-126 is unreachable dead code; this embedding
reproduces the reachable behaviour, in which a stored value whose digest does
not resolve comes back as Ok None. -/
def InMemoryActionCache.getImpl (cas : ObjectStore) (c : InMemoryActionCache)
    (key : Key) : Except CacheError (Option ObjectRef) :=
  match findEntry c.cache key with
  | none => Except.ok none
  | some stored => Except.ok (cas.getReference stored)

/-- The lookup InMemoryActionCache::getImpl evidently intended, as written in
its unreachable lines 122-126 and as the spec states it: a stored value whose
digest is unknown to the paired store is a dangling-value error. This mirrors
OnDiskActionCache::getImpl, whose check is reachable. -/
def InMemoryActionCache.getImplIntended (cas : ObjectStore)
    (c : InMemoryActionCache) (key : Key) : Except CacheError (Option ObjectRef) :=
  match findEntry c.cache key with
  | none => Except.ok none
  | some stored =>
    match cas.getReference stored with
    | none => Except.error (CacheError.unknownObject key stored)
    | some out => Except.ok (some out)

/-- InMemoryActionCache::putImpl (ActionCaches.cpp lines 129-141): insertLazy
the expected value, then verify the observed payload matches; on mismatch
return the poisoning error naming the new and the existing value. -/
def InMemoryActionCache.putImpl (cas : ObjectStore) (c : InMemoryActionCache)
    (key : Key) (result : ObjectRef) : InMemoryActionCache × Except CacheError Unit :=
  let expected := cas.getID result
  let inserted := insertLazy c.cache key expected
  if expected = inserted.2 then
    (InMemoryActionCache.mk inserted.1, Except.ok ())
  else
    (InMemoryActionCache.mk inserted.1,
      Except.error (CacheError.poisoned key expected inserted.2))

/-- OnDiskActionCache: an on-disk hash-mapped trie from key digests to
CacheEntry values (ActionCaches.cpp lines 56-82); the table contents are
modelled as an association list. -/
structure OnDiskActionCache where
  cache : List (Key × Hash)
deriving DecidableEq

/-- OnDiskActionCache::getImpl (ActionCaches.cpp lines 174-188): a missing key
is Ok None; a stored value whose digest does not resolve in the paired store is
the dangling-value error. -/
def OnDiskActionCache.getImpl (cas : ObjectStore) (c : OnDiskActionCache)
    (key : Key) : Except CacheError (Option ObjectRef) :=
  match findEntry c.cache key with
  | none => Except.ok none
  | some output =>
    match cas.getReference output with
    | none => Except.error (CacheError.unknownObject key output)
    | some out => Except.ok (some out)

/-- OnDiskActionCache::putImpl (ActionCaches.cpp lines 190-207): identical
insert-or-verify logic to the in-memory backend, over the on-disk trie. -/
def OnDiskActionCache.putImpl (cas : ObjectStore) (c : OnDiskActionCache)
    (key : Key) (result : ObjectRef) : OnDiskActionCache × Except CacheError Unit :=
  let expected := cas.getID result
  let inserted := insertLazy c.cache key expected
  if expected = inserted.2 then
    (OnDiskActionCache.mk inserted.1, Except.ok ())
  else
    (OnDiskActionCache.mk inserted.1,
      Except.error (CacheError.poisoned key expected inserted.2))

/-- OnDiskActionCache::getHashName (ActionCaches.cpp line 66). -/
def getHashName : String := "BLAKE3"

/-- OnDiskActionCache::getActionCacheTableName (ActionCaches.cpp lines 67-72). -/
def getActionCacheTableName : String :=
  "llvm.actioncache[" ++ getHashName ++ "->" ++ getHashName ++ "]"

/-- OnDiskActionCache::ActionCacheFile (ActionCaches.cpp line 73). -/
def ActionCacheFile : String := "actions"

/-- OnDiskActionCache::FilePrefix (ActionCaches.cpp line 74). -/
def FilePrefix : String := "v1."

/-- The path of the action-cache table file, as assembled by
OnDiskActionCache::create (ActionCaches.cpp lines 157-158): the root path with
FilePrefix and ActionCacheFile appended. -/
def onDiskActionCacheFilePath (root : String) : String :=
  root ++ "/" ++ FilePrefix ++ ActionCacheFile

/-- Dependency-scanning output formats named in CDependencies.cpp (the values
of ScanningOutputFormat that the file mentions). -/
inductive ScanningOutputFormat where
  | Make
  | Full
  | FullTree
  | FullIncludeTree
deriving DecidableEq

/-- DependencyScannerServiceOptions (CDependencies.cpp lines 31-39): the
configured format (defaulting to Full) and whether a CAS database and an
action cache have been attached. The CAS and cache pointers are modelled by
their non-nullness, which is all getFormat inspects. -/
structure DependencyScannerServiceOptions where
  ConfiguredFormat : ScanningOutputFormat
  hasCAS : Bool
  hasCache : Bool
deriving DecidableEq

/-- The two environment variables getFormat reads: whether each one is set in
the process environment. -/
structure ScanEnv where
  useIncludeTreeSet : Bool
  useCASFSDepscanSet : Bool
deriving DecidableEq

/-- DependencyScannerServiceOptions::getFormat (CDependencies.cpp lines
132-147): the configured format wins unless it is Full; the environment
variables are consulted only when both a CAS and a cache are attached. -/
def DependencyScannerServiceOptions.getFormat
    (opts : DependencyScannerServiceOptions) (env : ScanEnv) :
    ScanningOutputFormat :=
  if opts.ConfiguredFormat ≠ ScanningOutputFormat.Full then
    opts.ConfiguredFormat
  else if !opts.hasCAS || !opts.hasCache then
    opts.ConfiguredFormat
  else if env.useIncludeTreeSet then
    ScanningOutputFormat.FullIncludeTree
  else if env.useCASFSDepscanSet then
    ScanningOutputFormat.FullTree
  else
    opts.ConfiguredFormat

/-- One entry of the plugin ABI function table (PluginAPI_functions.def, used
by PluginCAS.cpp lines 80-86): the function name and whether it is required. -/
structure PluginAPIFunction where
  name : String
  required : Bool
deriving DecidableEq

/-- The dynamic-library symbol for a table entry: the name with the llcas
prefix as built by the CASPLUGINAPI_FUNCTION macro. -/
def symbolName (f : PluginAPIFunction) : String := "llcas_" ++ f.name

/-- Errors PluginCASContext::create can return. failedSymbolLookup is the
reportError message for a missing required symbol (PluginCAS.cpp lines 80-86),
carrying the plugin path and the symbol that failed to resolve. -/
inductive PluginLoadError where
  | libraryNotValid (pluginPath : String) (msg : String)
  | failedSymbolLookup (pluginPath : String) (symbol : String)
  | optionError (msg : String)
  | casCreateError (msg : String)
deriving DecidableEq

/-- The symbol-resolution loop of PluginCASContext::create (PluginCAS.cpp
lines 78-86): each table entry in order is looked up in the dynamic library;
a missing required symbol aborts creation with failedSymbolLookup; a missing
optional symbol stays null. The library is modelled as a partial map from
symbol names to addresses. -/
def resolveFunctions (pluginPath : String) (lookup : String → Option Nat) :
    List PluginAPIFunction →
    Except PluginLoadError (List (PluginAPIFunction × Option Nat))
  | [] => Except.ok []
  | f :: fs =>
    match lookup (symbolName f) with
    | some addr =>
      match resolveFunctions pluginPath lookup fs with
      | Except.ok table => Except.ok ((f, some addr) :: table)
      | Except.error e => Except.error e
    | none =>
      if f.required then
        Except.error (PluginLoadError.failedSymbolLookup pluginPath (symbolName f))
      else
        match resolveFunctions pluginPath lookup fs with
        | Except.ok table => Except.ok ((f, none) :: table)
        | Except.error e => Except.error e

/-- A loaded plugin context (PluginCAS.cpp PluginCASContext): the resolved
function table plus the schema name obtained from the plugin. -/
structure PluginCASContext where
  pluginPath : String
  functions : List (PluginAPIFunction × Option Nat)
  schemaName : String
deriving DecidableEq

/-- PluginCASContext::create (PluginCAS.cpp lines 62-117): resolve the
function table from the library, then hand the table to the remainder of
creation. The remainder (options setup, cas_create, schema query, lines
88-116) calls into the loaded plugin itself, an external collaborator, and is
therefore a parameter; the claim under proof only concerns the resolution
step, which runs before any of it. -/
def PluginCASContext.create (pluginPath : String) (lookup : String → Option Nat)
    (funcs : List PluginAPIFunction)
    (rest : List (PluginAPIFunction × Option Nat) →
      Except PluginLoadError PluginCASContext) :
    Except PluginLoadError PluginCASContext :=
  match resolveFunctions pluginPath lookup funcs with
  | Except.error e => Except.error e
  | Except.ok table => rest table

/-- One entry of the path-to-kind map of the capturing output backend
(CASOutputBackend PrivateImpl::KindMap). -/
structure KindMap where
  Kind : String
  Path : String
deriving DecidableEq

/-- PrivateImpl::tryRemapPath: the kind name registered for the path if one
was added for it, otherwise the path itself (first matching entry wins). -/
def tryRemapPath : List KindMap → String → String
  | [], path => path
  | m :: ms, path => if m.Path = path then m.Kind else tryRemapPath ms path

/-- CASOutputBackend::PrivateImpl: the accumulated interleaved refs list and
the registered kind maps. -/
structure PrivateImpl where
  Refs : List ObjectRef
  KindMaps : List KindMap
deriving DecidableEq

/-- CASOutputBackend: the lazily created PrivateImpl (null until first use,
modelled as Option). -/
structure CASOutputBackend where
  impl : Option PrivateImpl
deriving DecidableEq

/-- The keep path of an output file created by
CASOutputBackend::createFileImpl (the OnKeep closure, CASOutputBackend.cpp):
remap the path through the kind maps, store the name as a CAS object, store
the bytes as a CAS object, and append both refs to the accumulated list.
createFileImpl allocates PrivateImpl when it is still null. -/
def CASOutputBackend.keep (cas : ObjectStore) (b : CASOutputBackend)
    (path bytes : String) : ObjectStore × CASOutputBackend :=
  let impl := b.impl.getD (PrivateImpl.mk [] [])
  let name := tryRemapPath impl.KindMaps path
  let storedName := cas.store (Obj.mk [] name)
  let storedBytes := storedName.1.store (Obj.mk [] bytes)
  (storedBytes.1,
    CASOutputBackend.mk (some
      (PrivateImpl.mk (impl.Refs ++ [storedName.2, storedBytes.2]) impl.KindMaps)))

/-- CASOutputBackend::getCASProxy: with no PrivateImpl yet, create a proxy
with no refs and empty data; otherwise swap the accumulated refs out and
create a proxy whose refs are the moved list and whose data is empty. Returns
the updated store, the updated backend and the reference to the created
object. -/
def CASOutputBackend.getCASProxy (cas : ObjectStore) (b : CASOutputBackend) :
    ObjectStore × CASOutputBackend × ObjectRef :=
  match b.impl with
  | none =>
    let stored := cas.store (Obj.mk [] "")
    (stored.1, b, stored.2)
  | some impl =>
    let stored := cas.store (Obj.mk impl.Refs "")
    (stored.1, CASOutputBackend.mk (some (PrivateImpl.mk [] impl.KindMaps)),
      stored.2)

/-- A sequence of kept output files, in keep order: folds
CASOutputBackend.keep over the (path, bytes) pairs. -/
def CASOutputBackend.keepAll (cas : ObjectStore) (b : CASOutputBackend) :
    List (String × String) → ObjectStore × CASOutputBackend
  | [] => (cas, b)
  | f :: fs =>
    let step := CASOutputBackend.keep cas b f.1 f.2
    CASOutputBackend.keepAll step.1 step.2 fs

/-- The objects the interleaved refs list should resolve to after keeping the
given files: for each file, an object whose data is the remapped name followed
by an object whose data is the file bytes. -/
def interleavedOutputs (km : List KindMap) (files : List (String × String)) :
    List Obj :=
  files.flatMap (fun f => [Obj.mk [] (tryRemapPath km f.1), Obj.mk [] f.2])

/-- The refs accumulated so far in the backend (empty when PrivateImpl was
never created). -/
def CASOutputBackend.accumulatedRefs (b : CASOutputBackend) : List ObjectRef :=
  (b.impl.getD (PrivateImpl.mk [] [])).Refs

/-! Helper lemmas about the trie model. -/

/-- Appending a fresh entry for an absent key makes it findable. -/
theorem findEntry_append_of_none {c : List (Key × Hash)} {k : Key} {v : Hash}
    (h : findEntry c k = none) : findEntry (c ++ [(k, v)]) k = some v := by
  induction c with
  | nil => simp [findEntry]
  | cons e es ih =>
    by_cases he : e.1 = k
    · simp [findEntry, he] at h
    · simp [findEntry, he] at h ⊢
      exact ih h

/-- insertLazy on an absent key installs the new value. -/
theorem insertLazy_of_none {c : List (Key × Hash)} {k : Key} {v : Hash}
    (h : findEntry c k = none) : insertLazy c k v = (c ++ [(k, v)], v) := by
  simp [insertLazy, h]

/-- insertLazy on a present key returns the existing value, untouched. -/
theorem insertLazy_of_some {c : List (Key × Hash)} {k : Key} {e : Hash}
    (h : findEntry c k = some e) (v : Hash) : insertLazy c k v = (c, e) := by
  simp [insertLazy, h]

/-- A successful lookupObj points at the looked-up object. -/
theorem lookupObj_getElem? {xs : List Obj} {o : Obj} {i : Nat}
    (h : lookupObj xs o = some i) : xs[i]? = some o := by
  induction xs generalizing i with
  | nil => simp [lookupObj] at h
  | cons x xs ih =>
    by_cases hx : x = o
    · simp [lookupObj, hx] at h
      subst h
      simp [hx]
    · simp [lookupObj, hx] at h
      obtain ⟨j, hj, rfl⟩ := h
      simpa using ih hj

/-- In a duplicate-free table, the index of a stored object looks up to that
index. -/
theorem lookupObj_of_nodup {xs : List Obj} {o : Obj} {i : Nat}
    (hnd : xs.Nodup) (h : xs[i]? = some o) : lookupObj xs o = some i := by
  induction xs generalizing i with
  | nil => simp at h
  | cons x xs ih =>
    rcases List.nodup_cons.mp hnd with ⟨hx, hnd'⟩
    cases i with
    | zero =>
      simp at h
      simp [lookupObj, h]
    | succ j =>
      simp at h
      have hne : x ≠ o := by
        intro he
        exact hx (he ▸ List.getElem?_mem h)
      simp [lookupObj, hne, ih hnd' h]

/-- The reference returned by store points at the stored object. -/
theorem store_getElem?_self (s : ObjectStore) (o : Obj) :
    ((s.store o).1).objects[(s.store o).2]? = some o := by
  unfold ObjectStore.store
  cases hl : lookupObj s.objects o with
  | some i => simpa using lookupObj_getElem? hl
  | none => simp [List.getElem?_concat_length]

/-- store never disturbs existing table entries. -/
theorem store_preserves {s : ObjectStore} {i : Nat} {o' : Obj} (o : Obj)
    (h : s.objects[i]? = some o') :
    ((s.store o).1).objects[i]? = some o' := by
  unfold ObjectStore.store
  cases hl : lookupObj s.objects o with
  | some j => simpa using h
  | none =>
    have hi : i < s.objects.length := by
      rcases List.getElem?_eq_some_iff.mp h with ⟨hi, _⟩
      exact hi
    simp [List.getElem?_append_left hi, h]

/-- After a successful put, the cache maps the key to the digest of the stored
value (shared shape of both putImpl backends). -/
theorem insertLazy_ok_findEntry {c : List (Key × Hash)} {k : Key} {v : Hash}
    (h : (insertLazy c k v).2 = v) : findEntry (insertLazy c k v).1 k = some v := by
  cases hf : findEntry c k with
  | none => simp [insertLazy_of_none hf, findEntry_append_of_none hf]
  | some e =>
    have hil := insertLazy_of_some hf v
    have h2 : e = v := by rw [hil] at h; exact h
    rw [hil]
    show findEntry c k = some v
    rw [hf, h2]

/-- The final cache state of putImpl is the insertLazy result, in either
branch of the verify step (in-memory backend). -/
theorem inMemory_putImpl_cache (cas : ObjectStore) (c : InMemoryActionCache)
    (k : Key) (v : ObjectRef) :
    (InMemoryActionCache.putImpl cas c k v).1
      = InMemoryActionCache.mk (insertLazy c.cache k (cas.getID v)).1 := by
  simp only [InMemoryActionCache.putImpl]
  split <;> rfl

/-- The final cache state of putImpl is the insertLazy result, in either
branch of the verify step (on-disk backend). -/
theorem onDisk_putImpl_cache (cas : ObjectStore) (c : OnDiskActionCache)
    (k : Key) (v : ObjectRef) :
    (OnDiskActionCache.putImpl cas c k v).1
      = OnDiskActionCache.mk (insertLazy c.cache k (cas.getID v)).1 := by
  simp only [OnDiskActionCache.putImpl]
  split <;> rfl

/-- After a successful in-memory put, the cache maps the key to the digest of
the stored value. -/
theorem inMemory_putImpl_ok_findEntry {cas : ObjectStore}
    {c : InMemoryActionCache} {k : Key} {v : ObjectRef}
    (h : (InMemoryActionCache.putImpl cas c k v).2 = Except.ok ()) :
    findEntry (InMemoryActionCache.putImpl cas c k v).1.cache k
      = some (cas.getID v) := by
  by_cases hc : cas.getID v = (insertLazy c.cache k (cas.getID v)).2
  · rw [inMemory_putImpl_cache]
    exact insertLazy_ok_findEntry hc.symm
  · exfalso
    simp only [InMemoryActionCache.putImpl] at h
    rw [if_neg hc] at h
    simp at h

/-- After a successful on-disk put, the cache maps the key to the digest of
the stored value. -/
theorem onDisk_putImpl_ok_findEntry {cas : ObjectStore}
    {c : OnDiskActionCache} {k : Key} {v : ObjectRef}
    (h : (OnDiskActionCache.putImpl cas c k v).2 = Except.ok ()) :
    findEntry (OnDiskActionCache.putImpl cas c k v).1.cache k
      = some (cas.getID v) := by
  by_cases hc : cas.getID v = (insertLazy c.cache k (cas.getID v)).2
  · rw [onDisk_putImpl_cache]
    exact insertLazy_ok_findEntry hc.symm
  · exfalso
    simp only [OnDiskActionCache.putImpl] at h
    rw [if_neg hc] at h
    simp at h

/-- Equation for an in-memory put on an absent key: the entry is installed and
the put succeeds. -/
theorem inMemory_putImpl_of_none (cas : ObjectStore) {c : InMemoryActionCache}
    {k : Key} (hf : findEntry c.cache k = none) (v : ObjectRef) :
    InMemoryActionCache.putImpl cas c k v
      = (InMemoryActionCache.mk (c.cache ++ [(k, cas.getID v)]), Except.ok ()) := by
  simp only [InMemoryActionCache.putImpl]
  rw [insertLazy_of_none hf]
  simp

/-- Equation for an in-memory put on a present key: the cache is unchanged and
the result is ok or poisoned by comparing digests. -/
theorem inMemory_putImpl_of_found (cas : ObjectStore) {c : InMemoryActionCache}
    {k : Key} {e : Hash} (hf : findEntry c.cache k = some e) (v : ObjectRef) :
    InMemoryActionCache.putImpl cas c k v
      = (c, if cas.getID v = e then Except.ok ()
            else Except.error (CacheError.poisoned k (cas.getID v) e)) := by
  simp only [InMemoryActionCache.putImpl]
  rw [insertLazy_of_some hf]
  by_cases h : cas.getID v = e <;> simp [h]

/-- Equation for an on-disk put on an absent key: the entry is installed and
the put succeeds. -/
theorem onDisk_putImpl_of_none (cas : ObjectStore) {c : OnDiskActionCache}
    {k : Key} (hf : findEntry c.cache k = none) (v : ObjectRef) :
    OnDiskActionCache.putImpl cas c k v
      = (OnDiskActionCache.mk (c.cache ++ [(k, cas.getID v)]), Except.ok ()) := by
  simp only [OnDiskActionCache.putImpl]
  rw [insertLazy_of_none hf]
  simp

/-- Equation for an on-disk put on a present key: the cache is unchanged and
the result is ok or poisoned by comparing digests. -/
theorem onDisk_putImpl_of_found (cas : ObjectStore) {c : OnDiskActionCache}
    {k : Key} {e : Hash} (hf : findEntry c.cache k = some e) (v : ObjectRef) :
    OnDiskActionCache.putImpl cas c k v
      = (c, if cas.getID v = e then Except.ok ()
            else Except.error (CacheError.poisoned k (cas.getID v) e)) := by
  simp only [OnDiskActionCache.putImpl]
  rw [insertLazy_of_some hf]
  by_cases h : cas.getID v = e <;> simp [h]

/-- A reference below the table size resolves, via the digest of the object it
points at, back to itself when the table has no duplicates. -/
theorem getReference_getID {cas : ObjectStore} {v : ObjectRef}
    (hnd : cas.objects.Nodup) (hv : v < cas.objects.length) :
    cas.getReference (cas.getID v) = some v := by
  have hsome : cas.objects[v]? = some (cas.objects[v]) :=
    List.getElem?_eq_getElem hv
  have hid : cas.getID v = cas.objects[v] := by
    unfold ObjectStore.getID digest
    rw [List.getD_eq_getElem?_getD, hsome]
    rfl
  rw [hid]
  exact lookupObj_of_nodup hnd hsome

/-! Claim theorems. -/

/-- Claim C1. The claim states that for a key whose stored value has a digest
that does not resolve in the paired ObjectStore, get returns an Err for both
backends. The on-disk backend does return the dangling-value error, but
InMemoryActionCache::getImpl returns the raw getReference result at line 121
of ActionCaches.cpp, so its dangling-value check (lines 122-126, identical to
the reachable on-disk check and to the spec) is dead code and the in-memory
backend answers Ok None instead. Evaluated here at a concrete dangling input:
the store holds only the object with data 1, while the cache binds the key to
the digest of the absent object with data 2. -/
theorem C1_dangling_value_divergence :
    InMemoryActionCache.getImpl (ObjectStore.mk [Obj.mk [] "1"])
      (InMemoryActionCache.mk [(Obj.mk [] "1", Obj.mk [] "2")]) (Obj.mk [] "1")
      = Except.ok none ∧
    InMemoryActionCache.getImplIntended (ObjectStore.mk [Obj.mk [] "1"])
      (InMemoryActionCache.mk [(Obj.mk [] "1", Obj.mk [] "2")]) (Obj.mk [] "1")
      = Except.error (CacheError.unknownObject (Obj.mk [] "1") (Obj.mk [] "2")) ∧
    OnDiskActionCache.getImpl (ObjectStore.mk [Obj.mk [] "1"])
      (OnDiskActionCache.mk [(Obj.mk [] "1", Obj.mk [] "2")]) (Obj.mk [] "1")
      = Except.error (CacheError.unknownObject (Obj.mk [] "1") (Obj.mk [] "2")) :=
  ⟨rfl, rfl, rfl⟩

/-- Claim C7: a key with no entry in the action cache yields Ok None from get,
for both the in-memory and the on-disk backend. -/
theorem C7_absent_key_ok_none (cas : ObjectStore) (k : Key)
    (cm : InMemoryActionCache) (cd : OnDiskActionCache)
    (hm : findEntry cm.cache k = none) (hd : findEntry cd.cache k = none) :
    InMemoryActionCache.getImpl cas cm k = Except.ok none ∧
    OnDiskActionCache.getImpl cas cd k = Except.ok none := by
  constructor
  · unfold InMemoryActionCache.getImpl
    rw [hm]
  · unfold OnDiskActionCache.getImpl
    rw [hd]

/-- Witness for C7 at empty caches and a concrete key. -/
theorem C7_absent_key_ok_none_witness :
    InMemoryActionCache.getImpl (ObjectStore.mk []) (InMemoryActionCache.mk [])
      (Obj.mk [] "k") = Except.ok none ∧
    OnDiskActionCache.getImpl (ObjectStore.mk []) (OnDiskActionCache.mk [])
      (Obj.mk [] "k") = Except.ok none :=
  C7_absent_key_ok_none (ObjectStore.mk []) (Obj.mk [] "k")
    (InMemoryActionCache.mk []) (OnDiskActionCache.mk []) rfl rfl

/-- Claim C8: the on-disk action cache stores its table in the file
root/v1.actions, and the table name embedded in the header is exactly
llvm.actioncache[BLAKE3-to-BLAKE3] with an ASCII arrow. -/
theorem C8_ondisk_table_file_and_name :
    (∀ root : String, onDiskActionCacheFilePath root = root ++ "/v1.actions") ∧
    getActionCacheTableName = "llvm.actioncache[BLAKE3->BLAKE3]" := by
  constructor
  · intro root
    simp only [onDiskActionCacheFilePath, FilePrefix, ActionCacheFile,
      String.append_assoc]
    rfl
  · rfl

/-- Claim C5 counterexample: the claim reads the output format off the
environment variables unconditionally, but getFormat consults them only when
both a CAS and an action cache are attached. With no CAS attached and
CLANG_CACHE_USE_INCLUDE_TREE set, the format stays Full. -/
theorem C5_env_selection_counterexample :
    ¬ (∀ (opts : DependencyScannerServiceOptions) (env : ScanEnv),
        (env.useIncludeTreeSet = true →
          opts.getFormat env = ScanningOutputFormat.FullIncludeTree) ∧
        (env.useIncludeTreeSet = false → env.useCASFSDepscanSet = true →
          opts.getFormat env = ScanningOutputFormat.FullTree) ∧
        (env.useIncludeTreeSet = false → env.useCASFSDepscanSet = false →
          opts.getFormat env = ScanningOutputFormat.Full)) := by
  intro h
  have hc := (h (DependencyScannerServiceOptions.mk ScanningOutputFormat.Full
      false false) (ScanEnv.mk true false)).1 rfl
  exact absurd hc (by decide)

/-- Claim C5 as amended: when the configured format is the default Full and
both a CAS and an action cache are attached, CLANG_CACHE_USE_INCLUDE_TREE
selects FullIncludeTree, otherwise CLANG_CACHE_USE_CASFS_DEPSCAN selects
FullTree, otherwise the format is the default Full. -/
theorem C5_env_selection (opts : DependencyScannerServiceOptions) (env : ScanEnv)
    (hfmt : opts.ConfiguredFormat = ScanningOutputFormat.Full)
    (hcas : opts.hasCAS = true) (hcache : opts.hasCache = true) :
    opts.getFormat env =
      (if env.useIncludeTreeSet then ScanningOutputFormat.FullIncludeTree
       else if env.useCASFSDepscanSet then ScanningOutputFormat.FullTree
       else ScanningOutputFormat.Full) := by
  unfold DependencyScannerServiceOptions.getFormat
  rw [hfmt, hcas, hcache]
  simp

/-- Witness for the amended C5 at a concrete configuration: include-tree env
var unset, casfs env var set, CAS and cache attached. -/
theorem C5_env_selection_witness :
    DependencyScannerServiceOptions.getFormat
      (DependencyScannerServiceOptions.mk ScanningOutputFormat.Full true true)
      (ScanEnv.mk false true) = ScanningOutputFormat.FullTree := by
  have h := C5_env_selection
    (DependencyScannerServiceOptions.mk ScanningOutputFormat.Full true true)
    (ScanEnv.mk false true) rfl rfl rfl
  simpa using h

/-- Claim C2: insert-or-verify on both backends. A put on an empty entry
succeeds and stores the digest of v1; a second put whose value has the same
digest succeeds; a second put with a different digest fails with the poisoning
error naming the new and the existing value. -/
theorem C2_insert_or_verify (cas : ObjectStore) (k : Key) (v1 v2 : ObjectRef)
    (cm : InMemoryActionCache) (cd : OnDiskActionCache)
    (hm : findEntry cm.cache k = none) (hd : findEntry cd.cache k = none) :
    ((InMemoryActionCache.putImpl cas cm k v1).2 = Except.ok () ∧
      findEntry (InMemoryActionCache.putImpl cas cm k v1).1.cache k
        = some (cas.getID v1) ∧
      (cas.getID v2 = cas.getID v1 →
        (InMemoryActionCache.putImpl cas
          (InMemoryActionCache.putImpl cas cm k v1).1 k v2).2 = Except.ok ()) ∧
      (cas.getID v2 ≠ cas.getID v1 →
        (InMemoryActionCache.putImpl cas
          (InMemoryActionCache.putImpl cas cm k v1).1 k v2).2
          = Except.error (CacheError.poisoned k (cas.getID v2) (cas.getID v1)))) ∧
    ((OnDiskActionCache.putImpl cas cd k v1).2 = Except.ok () ∧
      findEntry (OnDiskActionCache.putImpl cas cd k v1).1.cache k
        = some (cas.getID v1) ∧
      (cas.getID v2 = cas.getID v1 →
        (OnDiskActionCache.putImpl cas
          (OnDiskActionCache.putImpl cas cd k v1).1 k v2).2 = Except.ok ()) ∧
      (cas.getID v2 ≠ cas.getID v1 →
        (OnDiskActionCache.putImpl cas
          (OnDiskActionCache.putImpl cas cd k v1).1 k v2).2
          = Except.error (CacheError.poisoned k (cas.getID v2) (cas.getID v1)))) := by
  constructor
  · have hput := inMemory_putImpl_of_none cas hm v1
    have hok : (InMemoryActionCache.putImpl cas cm k v1).2 = Except.ok () := by
      rw [hput]
    have hfind : findEntry (InMemoryActionCache.putImpl cas cm k v1).1.cache k
        = some (cas.getID v1) := by
      rw [hput]
      exact findEntry_append_of_none hm
    refine ⟨hok, hfind, ?_, ?_⟩
    · intro heq
      rw [inMemory_putImpl_of_found cas hfind]
      simp [heq]
    · intro hne
      rw [inMemory_putImpl_of_found cas hfind]
      simp [hne]
  · have hput := onDisk_putImpl_of_none cas hd v1
    have hok : (OnDiskActionCache.putImpl cas cd k v1).2 = Except.ok () := by
      rw [hput]
    have hfind : findEntry (OnDiskActionCache.putImpl cas cd k v1).1.cache k
        = some (cas.getID v1) := by
      rw [hput]
      exact findEntry_append_of_none hd
    refine ⟨hok, hfind, ?_, ?_⟩
    · intro heq
      rw [onDisk_putImpl_of_found cas hfind]
      simp [heq]
    · intro hne
      rw [onDisk_putImpl_of_found cas hfind]
      simp [hne]

/-- Witness for C2: a two-object store, the key is the digest of the first
object; storing value 0, then value 1 with a different digest, poisons. -/
theorem C2_insert_or_verify_witness :
    (InMemoryActionCache.putImpl (ObjectStore.mk [Obj.mk [] "1", Obj.mk [] "2"])
        (InMemoryActionCache.putImpl
          (ObjectStore.mk [Obj.mk [] "1", Obj.mk [] "2"])
          (InMemoryActionCache.mk []) (Obj.mk [] "1") 0).1 (Obj.mk [] "1") 1).2
      = Except.error (CacheError.poisoned (Obj.mk [] "1")
          ((ObjectStore.mk [Obj.mk [] "1", Obj.mk [] "2"]).getID 1)
          ((ObjectStore.mk [Obj.mk [] "1", Obj.mk [] "2"]).getID 0)) ∧
    (OnDiskActionCache.putImpl (ObjectStore.mk [Obj.mk [] "1", Obj.mk [] "2"])
        (OnDiskActionCache.putImpl
          (ObjectStore.mk [Obj.mk [] "1", Obj.mk [] "2"])
          (OnDiskActionCache.mk []) (Obj.mk [] "1") 0).1 (Obj.mk [] "1") 1).2
      = Except.error (CacheError.poisoned (Obj.mk [] "1")
          ((ObjectStore.mk [Obj.mk [] "1", Obj.mk [] "2"]).getID 1)
          ((ObjectStore.mk [Obj.mk [] "1", Obj.mk [] "2"]).getID 0)) := by
  have h := C2_insert_or_verify (ObjectStore.mk [Obj.mk [] "1", Obj.mk [] "2"])
    (Obj.mk [] "1") 0 1 (InMemoryActionCache.mk []) (OnDiskActionCache.mk [])
    rfl rfl
  exact ⟨h.1.2.2.2 (by decide), h.2.2.2.2 (by decide)⟩

/-- Claim C3: for a value that is an object present in the paired store, a
successful put followed by get on the same key returns Some of a reference
equal to the put value, for both backends. -/
theorem C3_put_then_get (cas : ObjectStore) (k : Key) (v : ObjectRef)
    (cm : InMemoryActionCache) (cd : OnDiskActionCache)
    (hnd : cas.objects.Nodup) (hv : v < cas.objects.length)
    (hm : (InMemoryActionCache.putImpl cas cm k v).2 = Except.ok ())
    (hd : (OnDiskActionCache.putImpl cas cd k v).2 = Except.ok ()) :
    InMemoryActionCache.getImpl cas (InMemoryActionCache.putImpl cas cm k v).1 k
      = Except.ok (some v) ∧
    OnDiskActionCache.getImpl cas (OnDiskActionCache.putImpl cas cd k v).1 k
      = Except.ok (some v) := by
  have href := getReference_getID hnd hv
  constructor
  · have hfind := inMemory_putImpl_ok_findEntry hm
    unfold InMemoryActionCache.getImpl
    rw [hfind]
    show Except.ok (cas.getReference (cas.getID v)) = Except.ok (some v)
    rw [href]
  · have hfind := onDisk_putImpl_ok_findEntry hd
    unfold OnDiskActionCache.getImpl
    rw [hfind]
    show (match cas.getReference (cas.getID v) with
      | none => Except.error (CacheError.unknownObject k (cas.getID v))
      | some out => Except.ok (some out)) = Except.ok (some v)
    rw [href]

/-- Witness for C3: a singleton store, the key is the digest of its object,
the value is reference 0. -/
theorem C3_put_then_get_witness :
    InMemoryActionCache.getImpl (ObjectStore.mk [Obj.mk [] "1"])
      (InMemoryActionCache.putImpl (ObjectStore.mk [Obj.mk [] "1"])
        (InMemoryActionCache.mk []) (Obj.mk [] "1") 0).1 (Obj.mk [] "1")
      = Except.ok (some 0) ∧
    OnDiskActionCache.getImpl (ObjectStore.mk [Obj.mk [] "1"])
      (OnDiskActionCache.putImpl (ObjectStore.mk [Obj.mk [] "1"])
        (OnDiskActionCache.mk []) (Obj.mk [] "1") 0).1 (Obj.mk [] "1")
      = Except.ok (some 0) :=
  C3_put_then_get (ObjectStore.mk [Obj.mk [] "1"]) (Obj.mk [] "1") 0
    (InMemoryActionCache.mk []) (OnDiskActionCache.mk [])
    (by simp) (by decide) rfl rfl

/-- Claim C4: a failed (poisoned) put leaves the entry unchanged. After a
successful put of v1 under k, a put of a different-digest v2 under k fails and
does not modify the cache state, and a further put of v1 under k succeeds, for
both backends. -/
theorem C4_failed_put_preserves_entry (cas : ObjectStore) (k : Key)
    (v1 v2 : ObjectRef) (cm : InMemoryActionCache) (cd : OnDiskActionCache)
    (h1m : (InMemoryActionCache.putImpl cas cm k v1).2 = Except.ok ())
    (h1d : (OnDiskActionCache.putImpl cas cd k v1).2 = Except.ok ())
    (hne : cas.getID v2 ≠ cas.getID v1) :
    ((InMemoryActionCache.putImpl cas
        (InMemoryActionCache.putImpl cas cm k v1).1 k v2).2
        = Except.error (CacheError.poisoned k (cas.getID v2) (cas.getID v1)) ∧
      (InMemoryActionCache.putImpl cas
        (InMemoryActionCache.putImpl cas cm k v1).1 k v2).1
        = (InMemoryActionCache.putImpl cas cm k v1).1 ∧
      (InMemoryActionCache.putImpl cas
        (InMemoryActionCache.putImpl cas
          (InMemoryActionCache.putImpl cas cm k v1).1 k v2).1 k v1).2
        = Except.ok ()) ∧
    ((OnDiskActionCache.putImpl cas
        (OnDiskActionCache.putImpl cas cd k v1).1 k v2).2
        = Except.error (CacheError.poisoned k (cas.getID v2) (cas.getID v1)) ∧
      (OnDiskActionCache.putImpl cas
        (OnDiskActionCache.putImpl cas cd k v1).1 k v2).1
        = (OnDiskActionCache.putImpl cas cd k v1).1 ∧
      (OnDiskActionCache.putImpl cas
        (OnDiskActionCache.putImpl cas
          (OnDiskActionCache.putImpl cas cd k v1).1 k v2).1 k v1).2
        = Except.ok ()) := by
  constructor
  · have hfind := inMemory_putImpl_ok_findEntry h1m
    have hsecond := inMemory_putImpl_of_found cas hfind v2
    have hstate : (InMemoryActionCache.putImpl cas
        (InMemoryActionCache.putImpl cas cm k v1).1 k v2).1
        = (InMemoryActionCache.putImpl cas cm k v1).1 := by
      rw [hsecond]
    refine ⟨?_, hstate, ?_⟩
    · rw [hsecond]
      simp [hne]
    · rw [hstate, inMemory_putImpl_of_found cas hfind v1]
      simp
  · have hfind := onDisk_putImpl_ok_findEntry h1d
    have hsecond := onDisk_putImpl_of_found cas hfind v2
    have hstate : (OnDiskActionCache.putImpl cas
        (OnDiskActionCache.putImpl cas cd k v1).1 k v2).1
        = (OnDiskActionCache.putImpl cas cd k v1).1 := by
      rw [hsecond]
    refine ⟨?_, hstate, ?_⟩
    · rw [hsecond]
      simp [hne]
    · rw [hstate, onDisk_putImpl_of_found cas hfind v1]
      simp

/-- Witness for C4: a two-object store; put 0 ok, put 1 poisons, put 0 ok
again, for both backends. -/
theorem C4_failed_put_preserves_entry_witness :
    (InMemoryActionCache.putImpl (ObjectStore.mk [Obj.mk [] "1", Obj.mk [] "2"])
        (InMemoryActionCache.putImpl
          (ObjectStore.mk [Obj.mk [] "1", Obj.mk [] "2"])
          (InMemoryActionCache.putImpl
            (ObjectStore.mk [Obj.mk [] "1", Obj.mk [] "2"])
            (InMemoryActionCache.mk []) (Obj.mk [] "1") 0).1
          (Obj.mk [] "1") 1).1 (Obj.mk [] "1") 0).2 = Except.ok () ∧
    (OnDiskActionCache.putImpl (ObjectStore.mk [Obj.mk [] "1", Obj.mk [] "2"])
        (OnDiskActionCache.putImpl
          (ObjectStore.mk [Obj.mk [] "1", Obj.mk [] "2"])
          (OnDiskActionCache.putImpl
            (ObjectStore.mk [Obj.mk [] "1", Obj.mk [] "2"])
            (OnDiskActionCache.mk []) (Obj.mk [] "1") 0).1
          (Obj.mk [] "1") 1).1 (Obj.mk [] "1") 0).2 = Except.ok () := by
  have h := C4_failed_put_preserves_entry
    (ObjectStore.mk [Obj.mk [] "1", Obj.mk [] "2"]) (Obj.mk [] "1") 0 1
    (InMemoryActionCache.mk []) (OnDiskActionCache.mk []) rfl rfl (by decide)
  exact ⟨h.1.2.2, h.2.2.2⟩

/-- When some required function of the table has no symbol in the library,
symbol resolution stops with failedSymbolLookup for a missing required
function (the first such one in table order). -/
theorem resolveFunctions_error_of_missing (pluginPath : String)
    (lookup : String → Option Nat) :
    ∀ funcs : List PluginAPIFunction,
      (∃ f ∈ funcs, f.required = true ∧ lookup (symbolName f) = none) →
      ∃ f ∈ funcs, f.required = true ∧ lookup (symbolName f) = none ∧
        resolveFunctions pluginPath lookup funcs
          = Except.error
              (PluginLoadError.failedSymbolLookup pluginPath (symbolName f)) := by
  intro funcs
  induction funcs with
  | nil =>
    intro h
    simp at h
  | cons f fs ih =>
    intro h
    cases hl : lookup (symbolName f) with
    | none =>
      by_cases hr : f.required = true
      · exact ⟨f, List.mem_cons_self f fs, hr, hl,
          by simp [resolveFunctions, hl, hr]⟩
      · obtain ⟨g, hg, hgr, hgl⟩ := h
        rcases List.mem_cons.mp hg with rfl | hgfs
        · exact absurd hgr hr
        · obtain ⟨g', hg', hgr', hgl', herr⟩ := ih ⟨g, hgfs, hgr, hgl⟩
          refine ⟨g', List.mem_cons_of_mem f hg', hgr', hgl', ?_⟩
          simp [resolveFunctions, hl, hr, herr]
    | some addr =>
      obtain ⟨g, hg, hgr, hgl⟩ := h
      rcases List.mem_cons.mp hg with rfl | hgfs
      · rw [hl] at hgl
        exact absurd hgl (by simp)
      · obtain ⟨g', hg', hgr', hgl', herr⟩ := ih ⟨g, hgfs, hgr, hgl⟩
        refine ⟨g', List.mem_cons_of_mem f hg', hgr', hgl', ?_⟩
        simp [resolveFunctions, hl, herr]

/-- Claim C9: whenever any function marked required in the plugin ABI function
table cannot be resolved from the dynamic library, plugin creation fails with
an error naming a missing required symbol, and returns that error instead of a
plugin context, whatever the rest of creation would have produced. -/
theorem C9_missing_required_symbol (pluginPath : String)
    (lookup : String → Option Nat) (funcs : List PluginAPIFunction)
    (rest : List (PluginAPIFunction × Option Nat) →
      Except PluginLoadError PluginCASContext)
    (h : ∃ f ∈ funcs, f.required = true ∧ lookup (symbolName f) = none) :
    ∃ f ∈ funcs, f.required = true ∧ lookup (symbolName f) = none ∧
      PluginCASContext.create pluginPath lookup funcs rest
        = Except.error
            (PluginLoadError.failedSymbolLookup pluginPath (symbolName f)) := by
  obtain ⟨f, hf, hr, hl, herr⟩ :=
    resolveFunctions_error_of_missing pluginPath lookup funcs h
  exact ⟨f, hf, hr, hl, by simp [PluginCASContext.create, herr]⟩

/-- Witness for C9: a library that resolves nothing, a one-entry table whose
only function is required, and a remainder that would succeed. -/
theorem C9_missing_required_symbol_witness :
    ∃ f ∈ [PluginAPIFunction.mk "cas_create" true], f.required = true ∧
      (fun _ => (none : Option Nat)) (symbolName f) = none ∧
      PluginCASContext.create "plugin.dylib" (fun _ => (none : Option Nat))
          [PluginAPIFunction.mk "cas_create" true]
          (fun table => Except.ok (PluginCASContext.mk "plugin.dylib" table ""))
        = Except.error (PluginLoadError.failedSymbolLookup "plugin.dylib"
            (symbolName f)) :=
  C9_missing_required_symbol "plugin.dylib" (fun _ => (none : Option Nat))
    [PluginAPIFunction.mk "cas_create" true]
    (fun table => Except.ok (PluginCASContext.mk "plugin.dylib" table ""))
    ⟨PluginAPIFunction.mk "cas_create" true, by simp, rfl, rfl⟩

/-- One keep step: two objects are stored (the remapped name and the bytes),
the two fresh refs are appended to the accumulated list, kind maps are kept,
and existing table entries are untouched. -/
theorem keep_spec (cas : ObjectStore) (rs : List ObjectRef) (km : List KindMap)
    (p bts : String) :
    ∃ (r1 r2 : ObjectRef) (s' : ObjectStore),
      CASOutputBackend.keep cas
          (CASOutputBackend.mk (some (PrivateImpl.mk rs km))) p bts
        = (s', CASOutputBackend.mk (some (PrivateImpl.mk (rs ++ [r1, r2]) km))) ∧
      (∀ (i : Nat) (o : Obj), cas.objects[i]? = some o → s'.objects[i]? = some o) ∧
      s'.objects[r1]? = some (Obj.mk [] (tryRemapPath km p)) ∧
      s'.objects[r2]? = some (Obj.mk [] bts) := by
  refine ⟨(cas.store (Obj.mk [] (tryRemapPath km p))).2,
    ((cas.store (Obj.mk [] (tryRemapPath km p))).1.store (Obj.mk [] bts)).2,
    ((cas.store (Obj.mk [] (tryRemapPath km p))).1.store (Obj.mk [] bts)).1,
    rfl, ?_, ?_, ?_⟩
  · intro i o h
    exact store_preserves _ (store_preserves _ h)
  · exact store_preserves _ (store_getElem?_self cas _)
  · exact store_getElem?_self _ _

/-- A sequence of keeps extends the accumulated refs by fresh refs that, in
the final store, resolve exactly to the interleaved name and bytes objects, in
keep order; earlier table entries are untouched. -/
theorem keepAll_spec :
    ∀ (files : List (String × String)) (cas : ObjectStore)
      (rs : List ObjectRef) (km : List KindMap),
      ∃ newRefs : List ObjectRef,
        (CASOutputBackend.keepAll cas
            (CASOutputBackend.mk (some (PrivateImpl.mk rs km))) files).2
          = CASOutputBackend.mk (some (PrivateImpl.mk (rs ++ newRefs) km)) ∧
        (∀ (i : Nat) (o : Obj), cas.objects[i]? = some o →
          (CASOutputBackend.keepAll cas
            (CASOutputBackend.mk (some (PrivateImpl.mk rs km)))
            files).1.objects[i]? = some o) ∧
        newRefs.map (fun r =>
            (CASOutputBackend.keepAll cas
              (CASOutputBackend.mk (some (PrivateImpl.mk rs km)))
              files).1.objects[r]?)
          = (interleavedOutputs km files).map some := by
  intro files
  induction files with
  | nil =>
    intro cas rs km
    exact ⟨[], by simp [CASOutputBackend.keepAll],
      fun i o h => by simpa [CASOutputBackend.keepAll] using h,
      by simp [CASOutputBackend.keepAll, interleavedOutputs]⟩
  | cons fb fs ih =>
    intro cas rs km
    obtain ⟨r1, r2, s', hkeep, hpres0, hr1, hr2⟩ := keep_spec cas rs km fb.1 fb.2
    have hstep : CASOutputBackend.keepAll cas
        (CASOutputBackend.mk (some (PrivateImpl.mk rs km))) (fb :: fs)
        = CASOutputBackend.keepAll s'
            (CASOutputBackend.mk (some (PrivateImpl.mk (rs ++ [r1, r2]) km))) fs := by
      show CASOutputBackend.keepAll
        (CASOutputBackend.keep cas
          (CASOutputBackend.mk (some (PrivateImpl.mk rs km))) fb.1 fb.2).1
        (CASOutputBackend.keep cas
          (CASOutputBackend.mk (some (PrivateImpl.mk rs km))) fb.1 fb.2).2 fs = _
      rw [hkeep]
    obtain ⟨nr, hback, hpres, hmap⟩ := ih s' (rs ++ [r1, r2]) km
    refine ⟨r1 :: r2 :: nr, ?_, ?_, ?_⟩
    · rw [hstep, hback]
      simp
    · intro i o h
      rw [hstep]
      exact hpres i o (hpres0 i o h)
    · rw [hstep]
      have h1 := hpres r1 (Obj.mk [] (tryRemapPath km fb.1)) hr1
      have h2 := hpres r2 (Obj.mk [] fb.2) hr2
      simp only [List.map_cons, h1, h2, hmap, interleavedOutputs,
        List.flatMap_cons, List.map_append]
      rfl

/-- The interleaved list has two entries per kept file. -/
theorem interleavedOutputs_length (km : List KindMap)
    (files : List (String × String)) :
    (interleavedOutputs km files).length = 2 * files.length := by
  induction files with
  | nil => simp [interleavedOutputs]
  | cons f fs ih =>
    simp only [interleavedOutputs, List.flatMap_cons, List.length_append,
      List.length_cons, List.length_nil] at ih ⊢
    omega

/-- Pointwise-resolved ref lists stay resolved under a store extension. -/
theorem map_resolve_mono :
    ∀ (rs : List ObjectRef) (os : List Obj) (f g : ObjectRef → Option Obj),
      (∀ r o, f r = some o → g r = some o) →
      rs.map f = os.map some → rs.map g = os.map some := by
  intro rs
  induction rs with
  | nil =>
    intro os f g hmono h
    have : os = [] := by
      cases os with
      | nil => rfl
      | cons o os => simp at h
    subst this
    simp
  | cons r rs ih =>
    intro os f g hmono h
    cases os with
    | nil => simp at h
    | cons o os =>
      simp only [List.map_cons, List.cons.injEq] at h
      simp only [List.map_cons, List.cons.injEq]
      exact ⟨hmono r o h.1, ih os f g hmono h.2⟩

/-- Claim C6: after any sequence of kept output files, getCASProxy returns an
object with empty data whose refs are the interleaved name and bytes objects
in keep order, two refs per kept file, the name being the path remapped
through the registered kind maps via tryRemapPath (the registered kind name
when an entry exists for the path, the path itself otherwise). -/
theorem C6_capturing_backend_interleaved (km : List KindMap)
    (files : List (String × String)) (cas : ObjectStore) :
    ∃ o : Obj,
      (let captured := CASOutputBackend.keepAll cas
          (CASOutputBackend.mk (some (PrivateImpl.mk [] km))) files
       let finalized := CASOutputBackend.getCASProxy captured.1 captured.2
       finalized.1.objects[finalized.2.2]? = some o ∧
       o.data = "" ∧
       o.refs.length = 2 * files.length ∧
       o.refs.map (fun r => finalized.1.objects[r]?)
         = (interleavedOutputs km files).map some) := by
  obtain ⟨nr, hback, hpres, hmap⟩ := keepAll_spec files cas [] km
  rw [List.nil_append] at hback
  have hlen : nr.length = 2 * files.length := by
    have hc := congrArg List.length hmap
    simpa [interleavedOutputs_length] using hc
  refine ⟨Obj.mk nr "", ?_⟩
  simp only [hback, CASOutputBackend.getCASProxy]
  refine ⟨store_getElem?_self _ _, by trivial, hlen, ?_⟩
  exact map_resolve_mono nr (interleavedOutputs km files) _ _
    (fun r o h => store_preserves _ h) hmap

/-- Claim C10: getCASProxy drains the accumulated refs. After any call the
backend holds no accumulated refs, so a second call with no intervening keep
returns an object with no refs and empty data, the very object returned when
nothing was ever captured. -/
theorem C10_getCASProxy_drains (cas : ObjectStore) (b : CASOutputBackend) :
    (CASOutputBackend.getCASProxy cas b).2.1.accumulatedRefs = [] ∧
    (let first := CASOutputBackend.getCASProxy cas b
     let second := CASOutputBackend.getCASProxy first.1 first.2.1
     second.1.objects[second.2.2]? = some (Obj.mk [] "")) ∧
    (let fresh := CASOutputBackend.getCASProxy cas (CASOutputBackend.mk none)
     fresh.1.objects[fresh.2.2]? = some (Obj.mk [] "")) := by
  obtain ⟨impl⟩ := b
  cases impl with
  | none =>
    exact ⟨rfl, store_getElem?_self _ _, store_getElem?_self _ _⟩
  | some impl =>
    exact ⟨rfl, store_getElem?_self _ _, store_getElem?_self _ _⟩
